import Mathlib

/-!
# grmon: polling, freezing and the visible row set

A shallow embedding of `client.go` (`getBody`, `poll`) and `main.go`
(`Refresh`, `RebuildRows`, the key handlers of `Display`, the replay
ingestion loop of `main`).

Go values that are shared through pointers are kept in an explicit heap:
a `*Routine` is an index into `Heap.objs`, a `[]string` is a slice header
(`StrSlice`) over a backing array in `Heap.arrays`.  A store through
`r.Trace[0] = ...` is a heap write, so aliasing between a snapshot and its
clone is visible in the model.
-/

namespace Grmon

/-! ## Heap: backing arrays of `[]string` and `Routine` objects -/

/-- A Go `[]string` header: backing array, index of the first element in it,
and length. -/
structure StrSlice where
  arr : Nat
  off : Nat
  len : Nat
deriving DecidableEq, Repr, Inhabited

/-- The object a `*Routine` points to (fields as used by `poll`). -/
structure Routine where
  Num : Int
  State : String
  CreatedBy : String
  Trace : StrSlice
deriving DecidableEq, Repr, Inhabited

/-- Memory: the backing arrays of string slices and the `Routine` objects,
both addressed by position. Allocation appends. -/
structure Heap where
  arrays : List (List String)
  objs : List Routine
deriving DecidableEq, Repr, Inhabited

/-- Dereference of a `*Routine`. The pointers a snapshot holds are allocated
(`Heap.WF`); a position outside the heap reads as the zero record. -/
def Heap.obj (h : Heap) (p : Nat) : Routine := h.objs.getD p default

/-- Backing array with the given address. -/
def Heap.array (h : Heap) (a : Nat) : List String := h.arrays.getD a []

/-- Elements of a slice, first to last. -/
def Heap.readSlice (h : Heap) (t : StrSlice) : List String :=
  ((h.array t.arr).drop t.off).take t.len

/-- Value of `t[i]`. -/
def Heap.readAt (h : Heap) (t : StrSlice) (i : Nat) : String :=
  (h.array t.arr).getD (t.off + i) ""

/-- Store `t[i] = v`. -/
def Heap.writeAt (h : Heap) (t : StrSlice) (i : Nat) (v : String) : Heap :=
  { h with arrays := h.arrays.set t.arr ((h.array t.arr).set (t.off + i) v) }

/-- Allocation for `append(make([]string, 0, n), src...)`: a new backing
array holding the elements of `src`, and a slice of length `n` over it. -/
def Heap.allocArr (h : Heap) (xs : List String) (n : Nat) : Heap × StrSlice :=
  ({ h with arrays := h.arrays ++ [xs] }, ⟨h.arrays.length, 0, n⟩)

/-- Allocation for `&Routine{...}`. -/
def Heap.allocObj (h : Heap) (r : Routine) : Heap × Nat :=
  ({ h with objs := h.objs ++ [r] }, h.objs.length)

/-- A record by value: what a `*Routine` denotes in a heap. -/
structure Rec where
  Num : Int
  State : String
  CreatedBy : String
  Trace : List String
deriving DecidableEq, Repr

/-- Value of the record behind a pointer. -/
def Heap.view (h : Heap) (p : Nat) : Rec :=
  let r := h.obj p
  ⟨r.Num, r.State, r.CreatedBy, h.readSlice r.Trace⟩

/-- Value of a `Routines` slice (a sequence of `*Routine`). -/
def Heap.snapshot (h : Heap) (ps : List Nat) : List Rec := ps.map h.view

/-- The slice lies inside an allocated backing array. -/
def Heap.validSlice (h : Heap) (t : StrSlice) : Prop :=
  t.arr < h.arrays.length ∧ t.off + t.len ≤ (h.array t.arr).length

instance (h : Heap) (t : StrSlice) : Decidable (h.validSlice t) := by
  unfold Heap.validSlice; infer_instance

/-- Every pointer of `ps` is allocated and its trace slice is valid: the
heap holds no dangling reference for this snapshot. -/
def Heap.WF (h : Heap) (ps : List Nat) : Prop :=
  ∀ p ∈ ps, p < h.objs.length ∧ h.validSlice (h.obj p).Trace

instance (h : Heap) (ps : List Nat) : Decidable (h.WF ps) := by
  unfold Heap.WF; infer_instance

/-! ## client.go -/

/-- Outcome of `client.Get(url)` followed by `buf.ReadFrom(r.Body)`: either
`Get` itself fails (no response), or a response with a status code arrives
and its body is read, completely (`readErr = none`) or up to a read error. -/
inductive GetResult where
  | transportErr (e : String)
  | response (status : Nat) (body : String) (readErr : Option String)
deriving DecidableEq, Repr

/-- What the code under study takes from outside: the network, the clock,
and the dump parser `ReadRoutines`, which allocates the records it parses. -/
structure Ext where
  Get : String → GetResult
  ReadRoutines : Heap → String → Heap × List Nat
  now : Nat

/-- A row widget (`wmap.MustGet(r.Num)`), with the fields `Refresh`,
`RebuildRows` and the enter handler touch. -/
structure Widget where
  state : String
  desc : String
  trace : StrSlice
  showTrace : Bool
deriving DecidableEq, Repr, Inhabited

/-- The grid: row widgets (each identified by its key in the widget map)
and the cursor index. -/
structure Grid where
  rows : List Int
  cursorPos : Nat
deriving DecidableEq, Repr, Inhabited

/-- Global variables of the program, the heap, and the log of URLs requested
from the network. `cachedRoutines` is the sequence of pointers of the retained
`Routines` value (`none` for a nil `cachedRoutines`); no statement of `main.go`
or `client.go` assigns to it or stores through it. -/
structure State where
  heap : Heap
  wmap : Int → Option Widget
  grid : Grid
  paused : Bool
  filter : String
  routines : List Nat
  cachedRoutines : Option (List Nat)
  sortKey : String
  lastRefresh : Nat
  hostFlag : String
  endpointFlag : String
  intervalFlag : Int
  requests : List String

/-- Function `getBody`: request the URL and read the body into a buffer.
Returns the buffer and the error; the status code is not looked at. -/
def getBody (x : Ext) (url : String) (s : State) : State × String × Option String :=
  let s1 := { s with requests := s.requests ++ [url] }
  match x.Get url with
  | .transportErr e => (s1, "", some e)
  | .response _ body (some e) => (s1, body, some e)
  | .response _ body none => (s1, body, none)

/-- The copy of one record in `poll`: a new `Routine` object with the same
`Num`, `State` and `CreatedBy`, and a new trace array holding the elements
of `r.Trace`. -/
def cloneStep (h : Heap) (r : Routine) : Heap × Nat :=
  let a := h.allocArr (h.readSlice r.Trace) r.Trace.len
  a.1.allocObj ⟨r.Num, r.State, r.CreatedBy, a.2⟩

/-- The loop of the deep clone in `poll`: records with an empty trace are
skipped, every other one is copied and the copy appended to `dst`. -/
def cloneLoop (h : Heap) (dst : List Nat) : List Nat → Heap × List Nat
  | [] => (h, dst)
  | p :: ps =>
    let r := h.obj p
    if r.Trace.len = 0 then cloneLoop h dst ps
    else
      let o := cloneStep h r
      cloneLoop o.1 (dst ++ [o.2]) ps

/-- Result of `poll`: the state after the call, the returned `Routines`
(`[]` for nil) and the returned error. -/
structure PollResult where
  state : State
  routines : List Nat
  err : Option String

/-- The URL `poll` formats from the host and endpoint flags. -/
def pollURL (s : State) : String :=
  "http://" ++ s.hostFlag ++ "/" ++ s.endpointFlag ++ "/goroutine?debug=2"

/-- Function `poll`. -/
def poll (x : Ext) (s : State) : PollResult :=
  match s.cachedRoutines with
  | some c =>
    let d := cloneLoop s.heap [] c
    ⟨{ s with heap := d.1 }, d.2, none⟩
  | none =>
    match getBody x (pollURL s) s with
    | (s1, _, some e) => ⟨s1, [], some e⟩
    | (s1, buf, none) =>
      let r := x.ReadRoutines s1.heap buf
      ⟨{ s1 with heap := r.1 }, r.2, none⟩

/-! ## main.go: Refresh and RebuildRows -/

/-- Go's `strings.Contains(l, sub)`: `sub` occurs in `l` as a contiguous
run of characters (always true for the empty `sub`). -/
def strContains (l sub : String) : Bool :=
  l.data.tails.any (fun t => sub.data.isPrefixOf t)

/-- Widget created by the widget map for a key it has not seen. -/
def newWidget : Widget := ⟨"", "", ⟨0, 0, 0⟩, false⟩

/-- Modelled from the spec: `wmap.MustGet` (the widget map is declared
outside `main.go` and `client.go`) looks up or lazily creates the persistent per-id handle.
Returns the map, holding the handle, and the handle's widget. -/
def MustGet (m : Int → Option Widget) (k : Int) : (Int → Option Widget) × Widget :=
  match m k with
  | some w => (m, w)
  | none => (Function.update m k (some newWidget), newWidget)

/-- Store through a widget handle: the widget with key `k` becomes `w`. -/
def setWidget (m : Int → Option Widget) (k : Int) (w : Widget) : Int → Option Widget :=
  Function.update m k (some w)

/-- The loop of `Refresh` over the polled records. `none` is the run-time
panic of `r.Trace[0]` on an empty trace. `SetState` and `SetTrace` (widget
methods declared outside `main.go`) store their argument in the widget; `SetTrace` receives
the slice after `r.Trace[0] = r.State`. -/
def refreshLoop (h : Heap) (m : Int → Option Widget) : List Nat → Option (Heap × (Int → Option Widget))
  | [] => some (h, m)
  | p :: ps =>
    let r := h.obj p
    let g := MustGet m r.Num
    let w := { g.2 with state := r.State }
    if r.Trace.len = 0 then none
    else
      let w := { w with desc := h.readAt r.Trace 0 }
      let h1 := h.writeAt r.Trace 0 r.State
      let w := { w with trace := r.Trace }
      refreshLoop h1 (setWidget g.1 r.Num w) ps

/-- Modelled from the spec: the order of `Routines.Sort` (declared outside
`main.go` and `client.go`), section 4.4: by id ascending, or by state ascending with ties
broken by ascending id. -/
def routineLE (h : Heap) (key : String) (a b : Nat) : Prop :=
  if key = "state" then
    (h.obj a).State < (h.obj b).State ∨
      ((h.obj a).State = (h.obj b).State ∧ (h.obj a).Num ≤ (h.obj b).Num)
  else (h.obj a).Num ≤ (h.obj b).Num

instance (h : Heap) (key : String) : DecidableRel (routineLE h key) := by
  intro a b; unfold routineLE; infer_instance

/-- Modelled from the spec: `Routines.Sort` (declared outside `main.go`
and `client.go`) reorders the slice of pointers by the active sort key. -/
def RoutinesSort (h : Heap) (key : String) (ps : List Nat) : List Nat :=
  ps.insertionSort (routineLE h key)

/-- Modelled from the spec: `grid.Clear` (the grid is declared outside
`main.go`) removes every row. -/
def Grid.Clear (g : Grid) : Grid := { g with rows := [] }

/-- Modelled from the spec: `grid.AddRow` (the grid is declared outside
`main.go`) appends a row widget. -/
def Grid.AddRow (g : Grid) (k : Int) : Grid := { g with rows := g.rows ++ [k] }

/-- Does some line of the widget's trace items contain the filter. -/
def traceMatches (h : Heap) (w : Widget) (f : String) : Bool :=
  (h.readSlice w.trace).any (fun l => strContains l f)

/-- The loop of `RebuildRows` over the sorted records. -/
def rowsLoop (h : Heap) (f : String) : (Int → Option Widget) → Grid → List Nat →
    (Int → Option Widget) × Grid
  | m, g, [] => (m, g)
  | m, g, p :: ps =>
    let k := (h.obj p).Num
    let w := MustGet m k
    if f = "" then rowsLoop h f w.1 (g.AddRow k) ps
    else if traceMatches h w.2 f then rowsLoop h f w.1 (g.AddRow k) ps
    else rowsLoop h f w.1 g ps

/-- Function `RebuildRows` (`Render` draws and changes nothing modelled). -/
def RebuildRows (s : State) : State :=
  let rs := RoutinesSort s.heap s.sortKey s.routines
  let r := rowsLoop s.heap s.filter s.wmap s.grid.Clear rs
  { s with routines := rs, wmap := r.1, grid := r.2 }

/-- Function `Refresh`. `none` is a run-time panic. -/
def Refresh (x : Ext) (s : State) : Option State :=
  let p := poll x s
  let s1 := { p.state with routines := p.routines }
  match p.err with
  | some _ => some s1
  | none =>
    match refreshLoop s1.heap s1.wmap s1.routines with
    | none => none
    | some (h, m) => some (RebuildRows { s1 with heap := h, wmap := m, lastRefresh := x.now })

/-! ## main.go: the key handlers of Display -/

/-- Modelled from the spec: the grid's cursor movement (the grid is declared
outside `main.go`), section 4.4 `moveCursor(delta)`: the cursor index is
clamped into `[0, len(rows)-1]` and the result tells whether the position
changed; on an empty row set it is a no-op returning false; in Live
(`paused = false`, a global the grid can read) cursor movement is disabled,
so the call is inert. -/
def Grid.moveCursor (paused : Bool) (delta : Int) (g : Grid) : Grid × Bool :=
  if paused = false then (g, false)
  else if g.rows.length = 0 then (g, false)
  else
    let target : Nat :=
      (max 0 (min ((g.cursorPos : Int) + delta) ((g.rows.length : Int) - 1))).toNat
    ({ g with cursorPos := target }, decide (target ≠ g.cursorPos))

/-- Modelled from the spec: `grid.CursorUp` (the grid is declared outside
`main.go`), section 4.4 `moveCursor(-1)`. -/
def Grid.CursorUp (paused : Bool) (g : Grid) : Grid × Bool := g.moveCursor paused (-1)

/-- Modelled from the spec: `grid.CursorDown` (the grid is declared
outside `main.go`), section 4.4 `moveCursor(+1)`. -/
def Grid.CursorDown (paused : Bool) (g : Grid) : Grid × Bool := g.moveCursor paused 1

/-- A call a cursor key handler makes: to the grid's cursor movement or to
`Render`. -/
inductive Call where
  | cursorUp
  | cursorDown
  | render
deriving DecidableEq, Repr

/-- What a cursor key handler does: the state it leaves and the calls it
made, in order. -/
structure Handled where
  state : State
  calls : List Call

/-- Handler of the "up" keys, `if grid.CursorUp() { Render() }`: the grid's
`CursorUp` is called without a test of `paused`, `Render` when it reports a
move. -/
def keyUp (s : State) : Handled :=
  let r := s.grid.CursorUp s.paused
  ⟨{ s with grid := r.1 }, if r.2 then [Call.cursorUp, Call.render] else [Call.cursorUp]⟩

/-- Handler of the "down" keys, `if grid.CursorDown() { Render() }`: the
grid's `CursorDown` is called without a test of `paused`, `Render` when it
reports a move. -/
def keyDown (s : State) : Handled :=
  let r := s.grid.CursorDown s.paused
  ⟨{ s with grid := r.1 }, if r.2 then [Call.cursorDown, Call.render] else [Call.cursorDown]⟩

/-- Modelled from the spec: `ToggleShowTrace` (the widgets are declared
outside `main.go`) flips whether the row shows its full trace. -/
def Widget.ToggleShowTrace (w : Widget) : Widget := { w with showTrace := !w.showTrace }

/-- Handler of the "enter" keys. `none` is the run-time panic of
`grid.rows[grid.cursorPos]` when the index is out of range. -/
def keyEnter (s : State) : Option State :=
  if s.paused then
    match s.grid.rows[s.grid.cursorPos]? with
    | none => none
    | some k => some { s with wmap := setWidget s.wmap k (MustGet s.wmap k).2.ToggleShowTrace }
  else some s

/-- Handler of `p`: the deferred `next` closure, run when the loop stops. -/
def keyP (s : State) : State := { s with paused := (s.paused != true) }

/-- Handler of `r`. -/
def keyR (x : Ext) (s : State) : Option State := Refresh x s

/-- Handler of `s`. -/
def keyS (s : State) : State :=
  RebuildRows { s with sortKey := if s.sortKey = "num" then "state" else "num" }

/-- The condition under which `Display` starts the timer goroutine. -/
def timerStarted (s : State) : Bool := decide (0 < s.intervalFlag) && !s.paused

/-- The mode set-up of `main` once the flags are parsed: `paused` is set when
path arguments were given (`nargs > 0`, after the ingestion loop) and when
the interval flag is zero. -/
def mainSetup (nargs : Nat) (s : State) : State :=
  let s1 := if 0 < nargs then { s with paused := true } else s
  if s1.intervalFlag = 0 then { s1 with paused := true } else s1


/-! ## main.go: replay ingestion -/

/-- Go's `strings.HasSuffix`. -/
def hasSuffix (s suf : String) : Bool := suf.data.isSuffixOf s.data

mutual
/-- A file-system entry as `filepath.Walk` meets it: a regular file, or a
directory with its entries in the order `Walk` visits them. -/
inductive FsNode where
  | file (name : String)
  | dir (name : String) (entries : FsList)
/-- Entries of a directory. -/
inductive FsList where
  | nil
  | cons (hd : FsNode) (tl : FsList)
end

/-- One member of a zip archive: its name, and what `zf.Open()` followed by
`io.Copy` gives: an open error, or the bytes copied and the copy's error. -/
structure ZipMember where
  Name : String
  content : Except String (String × Option String)

/-- An opened file: the bytes `io.Copy` transfers from it, the error of that
copy, and what `zip.NewReader` makes of it. -/
structure OpenFile where
  data : String
  copyErr : Option String
  zip : Except String (List ZipMember)

/-- The file system as the ingestion loop uses it: `os.Lstat` of a path
argument (the tree below it), and `os.Open` of a name, resolved against the
working directory. -/
structure FS where
  lstat : String → Option FsNode
  openName : String → Except String OpenFile

/-- The loop over the members of a zip archive. -/
def zipLoop (buf : String) : List ZipMember → Except String String
  | [] => .ok buf
  | zf :: rest =>
    if hasSuffix zf.Name "debug=2.txt" then
      match zf.content with
      | .error e => .error e
      | .ok (data, cerr) =>
        let buf := buf ++ data ++ "\n"
        match cerr with
        | some e => .error e
        | none => zipLoop buf rest
    else zipLoop buf rest

/-- The callback given to `filepath.Walk`, for a regular file with base name
`name` (`info.Name()`, which is what the callback opens); for a directory
the callback returns nil at once. -/
def walkFile (fs : FS) (buf : String) (name : String) : Except String String :=
  match fs.openName name with
  | .error e => .error e
  | .ok f =>
    if hasSuffix name ".zip" then
      match f.zip with
      | .error e => .error e
      | .ok members => zipLoop buf members
    else
      let buf := buf ++ f.data ++ "\n"
      match f.copyErr with
      | some e => .error e
      | none => .ok buf

mutual
/-- Recursion of `filepath.Walk` with the callback of `main`: pre-order, the
first error ends the walk. -/
def walk (fs : FS) (buf : String) : FsNode → Except String String
  | .file name => walkFile fs buf name
  | .dir _ entries => walkList fs buf entries
/-- The entries of one directory, in order. -/
def walkList (fs : FS) (buf : String) : FsList → Except String String
  | .nil => .ok buf
  | .cons hd tl =>
    match walk fs buf hd with
    | .error e => .error e
    | .ok buf1 => walkList fs buf1 tl
end

/-- How the ingestion loop ends: with the input buffer, with `os.Exit(1)`
after printing an error, or in a run-time panic (`info.IsDir()` on the nil
`info` that `Walk` passes when `Lstat` of the argument fails). -/
inductive Ingest where
  | done (inputBuffer : Option String)
  | exit (err : String)
  | crash
deriving DecidableEq, Repr

/-- The loop over the path arguments in `main`: a new buffer for each
argument (`inputBuffer = bytes.NewBuffer(nil)` is inside the loop), then the
walk. -/
def ingestLoop (fs : FS) (inputBuffer : Option String) : List String → Ingest
  | [] => .done inputBuffer
  | arg :: rest =>
    match fs.lstat arg with
    | none => .crash
    | some node =>
      match walk fs "" node with
      | .error e => .exit e
      | .ok buf => ingestLoop fs (some buf) rest

/-! ## Predicates used in the statements -/

/-- Heap `h'` extends `h`: everything allocated in `h` is still there,
unchanged. -/
def Heap.le (h h' : Heap) : Prop := h.arrays <+: h'.arrays ∧ h.objs <+: h'.objs

/-- Two heaps hold the same snapshot `c`: same objects, same trace arrays. -/
def Heap.sameOn (h h' : Heap) (c : List Nat) : Prop :=
  ∀ p ∈ c, h'.obj p = h.obj p ∧ h'.array (h.obj p).Trace.arr = h.array (h.obj p).Trace.arr ∧
    p < h'.objs.length ∧ (h.obj p).Trace.arr < h'.arrays.length

/-- Records of a fresh snapshot `d`: allocated, with a valid non-empty trace
slice whose backing array has an address of at least `n`. -/
def Heap.Fresh (n : Nat) (h : Heap) (d : List Nat) : Prop :=
  ∀ q ∈ d, q < h.objs.length ∧ h.validSlice (h.obj q).Trace ∧ (h.obj q).Trace.len ≠ 0 ∧
    n ≤ (h.obj q).Trace.arr

/-- A snapshot as `poll` hands it out: every record has a valid non-empty
trace slice, no two records share a trace array, and ids are unique. -/
def Heap.Separated (h : Heap) (d : List Nat) : Prop :=
  (∀ q ∈ d, h.validSlice (h.obj q).Trace ∧ (h.obj q).Trace.len ≠ 0) ∧
  (d.map (fun q => (h.obj q).Trace.arr)).Nodup ∧ (d.map (fun q => (h.obj q).Num)).Nodup

instance (h : Heap) (d : List Nat) : Decidable (h.Separated d) := by
  unfold Heap.Separated; infer_instance

/-- The store `r.Trace[0] = v r` on every record of a snapshot, in order. -/
def overwriteFirst (v : Routine → String) (h : Heap) : List Nat → Heap
  | [] => h
  | p :: ps => overwriteFirst v (h.writeAt (h.obj p).Trace 0 (v (h.obj p))) ps

/-- What the loop of `Refresh` leaves behind, relative to its start. -/
structure RefreshPost (h : Heap) (m : Int → Option Widget) (d : List Nat)
    (h2 : Heap) (m2 : Int → Option Widget) : Prop where
  objs : h2.objs = h.objs
  arrays_length : h2.arrays.length = h.arrays.length
  array_length : ∀ a, (h2.array a).length = (h.array a).length
  array_frame : ∀ a, a ∉ d.map (fun q => (h.obj q).Trace.arr) → h2.array a = h.array a
  wmap_frame : ∀ k, k ∉ d.map (fun q => (h.obj q).Num) → m2 k = m k
  array_set : (d.map (fun q => (h.obj q).Trace.arr)).Nodup → ∀ q ∈ d,
    h2.array (h.obj q).Trace.arr =
      (h.array (h.obj q).Trace.arr).set (h.obj q).Trace.off (h.obj q).State
  widget : (d.map (fun q => (h.obj q).Num)).Nodup → ∀ q ∈ d,
    ∃ w, m2 (h.obj q).Num = some w ∧ w.trace = (h.obj q).Trace

/-- Test of `RebuildRows` for one record: no filter, or a line of the
record's widget contains the filter. -/
def rowShown (h : Heap) (f : String) (m : Int → Option Widget) (p : Nat) : Bool :=
  decide (f = "") || traceMatches h (MustGet m (h.obj p).Num).2 f

/-! ## Example states -/

/-- Heap of the examples: record 2 sleeps in `main.idle`, record 7 has an
empty trace. -/
def exHeap : Heap :=
  ⟨[["main.idle /b.go:20", "main.main /b.go:5"], []],
   [⟨2, "sleeping", "main.main", ⟨0, 0, 2⟩⟩, ⟨7, "running", "", ⟨1, 0, 0⟩⟩]⟩

/-- A target that answers every request with status 404 and a body that
holds no goroutine block, which the parser reads as an empty snapshot. -/
def exNotFound : Ext :=
  ⟨fun _ => .response 404 "404 page not found" none, fun h _ => (h, []), 7⟩

/-- A target that cannot be reached. -/
def exDown : Ext :=
  ⟨fun _ => .transportErr "connection refused", fun h _ => (h, []), 7⟩

/-- Replay state: the retained snapshot holds both records of `exHeap`. -/
def exFrozen : State :=
  { heap := exHeap, wmap := fun _ => none, grid := ⟨[], 0⟩, paused := true, filter := "",
    routines := [], cachedRoutines := some [0, 1], sortKey := "num", lastRefresh := 0,
    hostFlag := "localhost:1234", endpointFlag := "/debug/pprof", intervalFlag := 5,
    requests := [] }

/-- Live state showing record 2 as its last good snapshot, with rows for the
widgets 2 and 7 in the grid and the cursor on the first row. -/
def exLive : State :=
  { heap := exHeap,
    wmap := fun k => if k = 2 then some ⟨"sleeping", "main.idle /b.go:20", ⟨0, 0, 2⟩, false⟩
      else if k = 7 then some ⟨"running", "", ⟨1, 0, 0⟩, false⟩ else none,
    grid := ⟨[2, 7], 0⟩, paused := false, filter := "",
    routines := [0], cachedRoutines := none, sortKey := "num", lastRefresh := 0,
    hostFlag := "localhost:1234", endpointFlag := "/debug/pprof", intervalFlag := 5,
    requests := [] }

/-- File system of the example: two regular files in the working directory. -/
def exFS : FS :=
  { lstat := fun p =>
      if p = "a.txt" then some (.file "a.txt")
      else if p = "b.txt" then some (.file "b.txt") else none
    openName := fun n =>
      if n = "a.txt" then .ok ⟨"goroutine 1 [running]:", none, .error "not a zip"⟩
      else if n = "b.txt" then .ok ⟨"goroutine 2 [sleeping]:", none, .error "not a zip"⟩
      else .error "no such file" }

/-! ## Heap extension -/

theorem Heap.le_refl (h : Heap) : h.le h := ⟨List.prefix_refl _, List.prefix_refl _⟩

theorem Heap.le_trans {a b c : Heap} (h1 : a.le b) (h2 : b.le c) : a.le c :=
  ⟨h1.1.trans h2.1, h1.2.trans h2.2⟩

theorem getD_of_extension {α : Type} {l l' : List α} (hp : l <+: l') {i : Nat}
    (hi : i < l.length) (d : α) : l'.getD i d = l.getD i d := by
  obtain ⟨t, rfl⟩ := hp
  simp [List.getD_eq_getElem?_getD, List.getElem?_append_left hi]

theorem Heap.obj_of_le {h h' : Heap} (hl : h.le h') {p : Nat} (hp : p < h.objs.length) :
    h'.obj p = h.obj p := getD_of_extension hl.2 hp _

theorem Heap.array_of_le {h h' : Heap} (hl : h.le h') {a : Nat} (ha : a < h.arrays.length) :
    h'.array a = h.array a := getD_of_extension hl.1 ha _

theorem Heap.view_of_sameOn {h h' : Heap} {c : List Nat} (hs : h.sameOn h' c) {p : Nat}
    (hp : p ∈ c) : h'.view p = h.view p := by
  obtain ⟨ho, ha, _, _⟩ := hs p hp
  simp [Heap.view, Heap.readSlice, ho, ha]

theorem Heap.snapshot_of_sameOn {h h' : Heap} {c : List Nat} (hs : h.sameOn h' c) :
    h'.snapshot c = h.snapshot c := by
  unfold Heap.snapshot
  exact List.map_congr_left (fun p hp => Heap.view_of_sameOn hs hp)

theorem Heap.WF_of_sameOn {h h' : Heap} {c : List Nat} (hs : h.sameOn h' c) (wf : h.WF c) :
    h'.WF c := by
  intro p hp
  obtain ⟨ho, ha, hl, hal⟩ := hs p hp
  obtain ⟨_, _, hv⟩ := wf p hp
  refine ⟨hl, ?_, ?_⟩
  · rw [ho]; exact hal
  · rw [ho, ha]; exact hv

theorem Heap.sameOn_of_le {h h' : Heap} (hl : h.le h') {c : List Nat} (wf : h.WF c) :
    h.sameOn h' c := by
  intro p hp
  obtain ⟨hpl, hal, _⟩ := wf p hp
  refine ⟨Heap.obj_of_le hl hpl, Heap.array_of_le hl hal, ?_, ?_⟩
  · exact lt_of_lt_of_le hpl hl.2.length_le
  · exact lt_of_lt_of_le hal hl.1.length_le

theorem obj_eq_of_objs {h h2 : Heap} (e : h2.objs = h.objs) (q : Nat) : h2.obj q = h.obj q := by
  unfold Heap.obj; rw [e]

theorem readSlice_length {h : Heap} {t : StrSlice} (hv : h.validSlice t) :
    (h.readSlice t).length = t.len := by
  unfold Heap.readSlice
  rw [List.length_take, List.length_drop]
  have := hv.2
  omega

theorem array_writeAt (h : Heap) (t : StrSlice) (i : Nat) (v : String) (a : Nat) :
    (h.writeAt t i v).array a =
      if a = t.arr then (h.array a).set (t.off + i) v else h.array a := by
  unfold Heap.writeAt Heap.array
  simp only [List.getD_eq_getElem?_getD, List.getElem?_set]
  by_cases ha : a = t.arr
  · subst ha
    by_cases hl : t.arr < h.arrays.length
    · simp [hl]
    · simp [hl, List.getElem?_eq_none (not_lt.mp hl)]
  · simp [ha, Ne.symm ha]

theorem take_drop_set (l : List String) (off n : Nat) (v : String) (ho : off < l.length)
    (hn : n ≠ 0) : ((l.set off v).drop off).take n = v :: ((l.drop off).take n).tail := by
  obtain ⟨k, rfl⟩ : ∃ k, n = k + 1 := ⟨n - 1, by omega⟩
  have h1 : (l.set off v).drop off = v :: l.drop (off + 1) := by
    rw [List.drop_eq_getElem_cons (by simpa using ho)]
    simp [List.drop_set_of_lt]
  have h2 : l.drop off = l[off] :: l.drop (off + 1) := List.drop_eq_getElem_cons ho
  rw [h1, h2]
  rfl

/-- The model of `strings.Contains` is the substring relation. -/
theorem strContains_iff (l sub : String) :
    strContains l sub = true ↔ sub.data <:+: l.data := by
  unfold strContains
  rw [List.any_eq_true, List.infix_iff_prefix_suffix]
  constructor
  · rintro ⟨t, ht, hp⟩
    exact ⟨t, List.isPrefixOf_iff_prefix.mp hp, (List.mem_tails _ _).mp ht⟩
  · rintro ⟨t, hp, hs⟩
    exact ⟨t, (List.mem_tails _ _).mpr hs, List.isPrefixOf_iff_prefix.mpr hp⟩

/-! ## The deep clone -/

theorem cloneLoop_acc (ps : List Nat) : ∀ (h : Heap) (dst : List Nat),
    cloneLoop h dst ps = ((cloneLoop h [] ps).1, dst ++ (cloneLoop h [] ps).2) := by
  induction ps with
  | nil => intro h dst; simp [cloneLoop]
  | cons p ps ih =>
    intro h dst
    by_cases hz : (h.obj p).Trace.len = 0
    · simp only [cloneLoop, hz, if_true]
      exact ih h dst
    · simp only [cloneLoop, hz, if_false]
      rw [ih _ (dst ++ _), ih _ ([] ++ _)]
      simp

theorem cloneLoop_cons_skip {h : Heap} {p : Nat} (ps : List Nat)
    (hz : (h.obj p).Trace.len = 0) : cloneLoop h [] (p :: ps) = cloneLoop h [] ps := by
  simp only [cloneLoop, hz, if_true]

theorem cloneLoop_cons_copy {h : Heap} {p : Nat} (ps : List Nat)
    (hz : (h.obj p).Trace.len ≠ 0) :
    cloneLoop h [] (p :: ps) =
      ((cloneLoop (cloneStep h (h.obj p)).1 [] ps).1,
        (cloneStep h (h.obj p)).2 :: (cloneLoop (cloneStep h (h.obj p)).1 [] ps).2) := by
  simp only [cloneLoop, hz, if_false]
  rw [cloneLoop_acc]
  simp

/-- The clone of one record: a new object, a new array, same contents. -/
theorem cloneStep_spec (h : Heap) (r : Routine) :
    (cloneStep h r).1.obj (cloneStep h r).2 =
      ⟨r.Num, r.State, r.CreatedBy, ⟨h.arrays.length, 0, r.Trace.len⟩⟩ ∧
    (cloneStep h r).1.array h.arrays.length = h.readSlice r.Trace ∧
    (cloneStep h r).2 = h.objs.length ∧ (cloneStep h r).1.objs.length = h.objs.length + 1 ∧
    (cloneStep h r).1.arrays.length = h.arrays.length + 1 ∧ h.le (cloneStep h r).1 := by
  refine ⟨?_, ?_, rfl, ?_, ?_, ?_⟩
  · simp [cloneStep, Heap.obj, Heap.allocObj, Heap.allocArr, List.getD_eq_getElem?_getD]
  · simp [cloneStep, Heap.array, Heap.allocObj, Heap.allocArr, List.getD_eq_getElem?_getD]
  · simp [cloneStep, Heap.allocObj, Heap.allocArr]
  · simp [cloneStep, Heap.allocObj, Heap.allocArr]
  · exact ⟨List.prefix_append _ _, List.prefix_append _ _⟩

theorem cloneLoop_spec (ps : List Nat) : ∀ (h : Heap), h.WF ps →
    h.le (cloneLoop h [] ps).1 ∧
    (cloneLoop h [] ps).1.snapshot (cloneLoop h [] ps).2 =
      (h.snapshot ps).filter (fun r => decide (r.Trace ≠ [])) ∧
    Heap.Fresh h.arrays.length (cloneLoop h [] ps).1 (cloneLoop h [] ps).2 ∧
    ((cloneLoop h [] ps).2.map (fun q => ((cloneLoop h [] ps).1.obj q).Trace.arr)).Nodup := by
  induction ps with
  | nil =>
    intro h _
    refine ⟨Heap.le_refl h, by simp [cloneLoop, Heap.snapshot], ?_, by simp [cloneLoop]⟩
    intro q hq; simp [cloneLoop] at hq
  | cons p ps ih =>
    intro h wf
    have wfp := wf p (List.mem_cons_self _ _)
    have wfps : h.WF ps := fun q hq => wf q (List.mem_cons_of_mem _ hq)
    by_cases hz : (h.obj p).Trace.len = 0
    · have hv : (h.view p).Trace = [] := by
        have := readSlice_length wfp.2
        rw [hz] at this
        exact List.length_eq_zero.mp this
      rw [cloneLoop_cons_skip ps hz]
      obtain ⟨i1, i2, i3, i4⟩ := ih h wfps
      refine ⟨i1, ?_, i3, i4⟩
      rw [i2]
      simp [Heap.snapshot, hv]
    · obtain ⟨e1, e2, e3, e4, e5, e6⟩ := cloneStep_spec h (h.obj p)
      rw [cloneLoop_cons_copy ps hz]
      generalize cloneStep h (h.obj p) = o at e1 e2 e3 e4 e5 e6
      have wf2 : o.1.WF ps := Heap.WF_of_sameOn (Heap.sameOn_of_le e6 wfps) wfps
      obtain ⟨i1, i2, i3, i4⟩ := ih o.1 wf2
      have hq2 : o.2 < o.1.objs.length := by omega
      have ha2 : h.arrays.length < o.1.arrays.length := by omega
      have hobj : (cloneLoop o.1 [] ps).1.obj o.2 =
          ⟨(h.obj p).Num, (h.obj p).State, (h.obj p).CreatedBy,
            ⟨h.arrays.length, 0, (h.obj p).Trace.len⟩⟩ := by
        rw [Heap.obj_of_le i1 hq2, e1]
      have harr : (cloneLoop o.1 [] ps).1.array h.arrays.length = h.readSlice (h.obj p).Trace := by
        rw [Heap.array_of_le i1 ha2, e2]
      have hlen := readSlice_length wfp.2
      refine ⟨Heap.le_trans e6 i1, ?_, ?_, ?_⟩
      · have hview : (cloneLoop o.1 [] ps).1.view o.2 = h.view p := by
          simp only [Heap.view, hobj]
          simp only [Heap.readSlice, harr, List.drop_zero]
          rw [List.take_of_length_le (le_of_eq (by simpa [Heap.readSlice] using hlen))]
        have hne : (h.view p).Trace ≠ [] := by
          intro hnil
          have : (h.readSlice (h.obj p).Trace).length = 0 := by
            simp only [Heap.view] at hnil; rw [hnil]; rfl
          omega
        have hsnap : o.1.snapshot ps = h.snapshot ps :=
          Heap.snapshot_of_sameOn (Heap.sameOn_of_le e6 wfps)
        show (cloneLoop o.1 [] ps).1.snapshot (o.2 :: (cloneLoop o.1 [] ps).2) = _
        simp only [Heap.snapshot, List.map_cons] at i2 hsnap ⊢
        rw [hview, i2, hsnap]
        simp [hne]
      · intro q hq
        rcases List.mem_cons.mp hq with rfl | hq
        · refine ⟨lt_of_lt_of_le hq2 i1.2.length_le, ?_, ?_, ?_⟩
          · rw [hobj]
            refine ⟨lt_of_lt_of_le ha2 i1.1.length_le, ?_⟩
            simp only [harr]; omega
          · rw [hobj]; exact hz
          · rw [hobj]
        · obtain ⟨f1, f2, f3, f4⟩ := i3 q hq
          exact ⟨f1, f2, f3, le_trans (le_of_lt ha2) f4⟩
      · show ((o.2 :: (cloneLoop o.1 [] ps).2).map
          (fun q => ((cloneLoop o.1 [] ps).1.obj q).Trace.arr)).Nodup
        rw [List.map_cons, List.nodup_cons]
        refine ⟨?_, i4⟩
        intro hmem
        obtain ⟨q, hq, e⟩ := List.mem_map.mp hmem
        have f4 := (i3 q hq).2.2.2
        rw [hobj] at e
        simp only at e
        omega

theorem poll_cached (x : Ext) (s : State) (c : List Nat) (hc : s.cachedRoutines = some c) :
    poll x s = ⟨{ s with heap := (cloneLoop s.heap [] c).1 }, (cloneLoop s.heap [] c).2, none⟩ := by
  simp only [poll, hc]

/-! ## The loop of Refresh -/

theorem MustGet_fst_of_ne (m : Int → Option Widget) (j k : Int) (hk : k ≠ j) :
    (MustGet m j).1 k = m k := by
  unfold MustGet
  cases hm : m j <;> simp [Function.update, hk]

theorem MustGet_snd_MustGet (m : Int → Option Widget) (j k : Int) :
    (MustGet (MustGet m j).1 k).2 = (MustGet m k).2 := by
  by_cases hk : k = j
  · subst hk
    unfold MustGet
    cases hm : m k <;> simp [hm, Function.update]
  · unfold MustGet
    cases hj : m j <;> cases hm : m k <;> simp [hm, Function.update, hk]

theorem refreshLoop_spec (d : List Nat) : ∀ (h : Heap) (m : Int → Option Widget),
    (∀ q ∈ d, (h.obj q).Trace.len ≠ 0) →
    ∃ h2 m2, refreshLoop h m d = some (h2, m2) ∧ RefreshPost h m d h2 m2 := by
  induction d with
  | nil =>
    intro h m _
    exact ⟨h, m, rfl, ⟨rfl, rfl, fun _ => rfl, fun _ _ => rfl, fun _ _ => rfl,
      fun _ q hq => absurd hq (List.not_mem_nil q), fun _ q hq => absurd hq (List.not_mem_nil q)⟩⟩
  | cons p ps ih =>
    intro h m hne
    have hp := hne p (List.mem_cons_self _ _)
    have hps : ∀ q ∈ ps, (h.obj q).Trace.len ≠ 0 := fun q hq => hne q (List.mem_cons_of_mem _ hq)
    obtain ⟨h2, m2, hrun, post⟩ := ih (h.writeAt (h.obj p).Trace 0 (h.obj p).State)
      (setWidget (MustGet m (h.obj p).Num).1 (h.obj p).Num
        { state := (h.obj p).State, desc := h.readAt (h.obj p).Trace 0,
          trace := (h.obj p).Trace, showTrace := (MustGet m (h.obj p).Num).2.showTrace }) hps
    have hobj : ∀ q, (h.writeAt (h.obj p).Trace 0 (h.obj p).State).obj q = h.obj q := fun _ => rfl
    refine ⟨h2, m2, ?_, ?_⟩
    · simp only [refreshLoop, hp, if_false]
      exact hrun
    · have hw1 := array_writeAt h (h.obj p).Trace 0 (h.obj p).State
      refine ⟨post.objs, ?_, ?_, ?_, ?_, ?_, ?_⟩
      · rw [post.arrays_length]; simp [Heap.writeAt]
      · intro a
        rw [post.array_length, hw1]
        split <;> simp
      · intro a ha
        simp only [List.map_cons, List.mem_cons, not_or] at ha
        rw [post.array_frame a ha.2, hw1, if_neg ha.1]
      · intro k hk
        simp only [List.map_cons, List.mem_cons, not_or] at hk
        rw [post.wmap_frame k hk.2]
        simp only [setWidget, Function.update_noteq hk.1]
        exact MustGet_fst_of_ne m _ k hk.1
      · intro hnd q hq
        simp only [List.map_cons, List.nodup_cons] at hnd
        rcases List.mem_cons.mp hq with rfl | hq
        · rw [post.array_frame _ hnd.1, hw1, if_pos rfl, Nat.add_zero]
        · have hqa : (h.obj q).Trace.arr ≠ (h.obj p).Trace.arr := by
            intro e
            exact hnd.1 (e ▸ List.mem_map_of_mem (fun q => (h.obj q).Trace.arr) hq)
          have e := post.array_set hnd.2 q hq
          simp only [hobj] at e
          rw [e, hw1, if_neg hqa]
      · intro hnd q hq
        simp only [List.map_cons, List.nodup_cons] at hnd
        rcases List.mem_cons.mp hq with rfl | hq
        · rw [post.wmap_frame _ hnd.1]
          exact ⟨_, Function.update_same _ _ _, rfl⟩
        · exact post.widget hnd.2 q hq

theorem overwriteFirst_frame (v : Routine → String) (d : List Nat) : ∀ (h : Heap),
    (overwriteFirst v h d).objs = h.objs ∧
    (overwriteFirst v h d).arrays.length = h.arrays.length ∧
    ∀ a, a ∉ d.map (fun q => (h.obj q).Trace.arr) → (overwriteFirst v h d).array a = h.array a := by
  induction d with
  | nil => intro h; exact ⟨rfl, rfl, fun _ _ => rfl⟩
  | cons p ps ih =>
    intro h
    obtain ⟨i1, i2, i3⟩ := ih (h.writeAt (h.obj p).Trace 0 (v (h.obj p)))
    refine ⟨i1, ?_, ?_⟩
    · show (overwriteFirst v (h.writeAt (h.obj p).Trace 0 (v (h.obj p))) ps).arrays.length = _
      rw [i2]; simp [Heap.writeAt]
    · intro a ha
      simp only [List.map_cons, List.mem_cons, not_or] at ha
      show (overwriteFirst v (h.writeAt (h.obj p).Trace 0 (v (h.obj p))) ps).array a = _
      rw [i3 a ha.2, array_writeAt, if_neg ha.1]

/-- The heap the loop of `Refresh` leaves is the heap after the stores
`r.Trace[0] = r.State`. -/
theorem refreshLoop_heap (d : List Nat) : ∀ (h : Heap) (m : Int → Option Widget) (h2 : Heap)
    (m2 : Int → Option Widget), refreshLoop h m d = some (h2, m2) →
    h2 = overwriteFirst (fun r => r.State) h d := by
  induction d with
  | nil => intro h m h2 m2 e; simp [refreshLoop] at e; simp [overwriteFirst, e.1]
  | cons p ps ih =>
    intro h m h2 m2 e
    by_cases hz : (h.obj p).Trace.len = 0
    · simp [refreshLoop, hz] at e
    · simp only [refreshLoop, hz, if_false] at e
      exact ih _ _ _ _ e

/-- A heap `h2` that differs from `h1` only in the trace arrays of a fresh
snapshot `d` still holds the older snapshot `c` unchanged. -/
theorem sameOn_of_fresh_writes {h h1 h2 : Heap} {c d : List Nat} (wf : h.WF c)
    (hl : h.le h1) (hf : Heap.Fresh h.arrays.length h1 d)
    (ho : h2.objs = h1.objs) (hal : h2.arrays.length = h1.arrays.length)
    (hfr : ∀ a, a ∉ d.map (fun q => (h1.obj q).Trace.arr) → h2.array a = h1.array a) :
    h.sameOn h2 c := by
  intro p hp
  obtain ⟨hpl, hav, _⟩ := wf p hp
  have hobj2 : h2.obj p = h1.obj p := obj_eq_of_objs ho p
  have hnot : (h.obj p).Trace.arr ∉ d.map (fun q => (h1.obj q).Trace.arr) := by
    intro hmem
    obtain ⟨q, hq, e⟩ := List.mem_map.mp hmem
    have := (hf q hq).2.2.2
    omega
  refine ⟨?_, ?_, ?_, ?_⟩
  · rw [hobj2, Heap.obj_of_le hl hpl]
  · rw [hfr _ hnot, Heap.array_of_le hl hav]
  · rw [ho]; exact lt_of_lt_of_le hpl hl.2.length_le
  · rw [hal]; exact lt_of_lt_of_le hav hl.1.length_le

/-- The clone in `poll`, by value: the records of the retained snapshot that
have a trace. -/
theorem poll_cached_snapshot (x : Ext) (s : State) (c : List Nat)
    (hc : s.cachedRoutines = some c) (wf : s.heap.WF c) :
    (poll x s).err = none ∧
    (poll x s).state.heap.snapshot (poll x s).routines =
      (s.heap.snapshot c).filter (fun r => decide (r.Trace ≠ [])) := by
  obtain ⟨_, h2, _⟩ := cloneLoop_spec c s.heap wf
  rw [poll_cached x s c hc]
  exact ⟨rfl, h2⟩

/-- A clone handed out by `poll` is separated as soon as the retained
records that have a trace carry unique ids. -/
theorem poll_cached_separated (x : Ext) (s : State) (c : List Nat)
    (hc : s.cachedRoutines = some c) (wf : s.heap.WF c)
    (hn : (((s.heap.snapshot c).filter (fun r => decide (r.Trace ≠ []))).map
      (fun r => r.Num)).Nodup) :
    (poll x s).state.heap.Separated (poll x s).routines := by
  obtain ⟨_, h2, h3, h4⟩ := cloneLoop_spec c s.heap wf
  rw [poll_cached x s c hc]
  refine ⟨fun q hq => ⟨(h3 q hq).2.1, (h3 q hq).2.2.1⟩, h4, ?_⟩
  have e : (cloneLoop s.heap [] c).2.map (fun q => ((cloneLoop s.heap [] c).1.obj q).Num) =
      ((cloneLoop s.heap [] c).1.snapshot (cloneLoop s.heap [] c).2).map (fun r => r.Num) := by
    simp [Heap.snapshot, Heap.view]
  show ((cloneLoop s.heap [] c).2.map (fun q => ((cloneLoop s.heap [] c).1.obj q).Num)).Nodup
  rw [e, h2]
  exact hn

theorem poll_filter_wmap (x : Ext) (s : State) :
    (poll x s).state.filter = s.filter ∧ (poll x s).state.wmap = s.wmap := by
  unfold poll
  cases hc : s.cachedRoutines with
  | some c => exact ⟨rfl, rfl⟩
  | none =>
    simp only [getBody]
    cases hg : x.Get (pollURL s) with
    | transportErr e => exact ⟨rfl, rfl⟩
    | response st body re => cases re <;> exact ⟨rfl, rfl⟩

theorem keyP_paused (s : State) : (keyP s).paused = !s.paused := by
  cases h : s.paused <;> simp [keyP, h]

theorem mainSetup_frame (n : Nat) (s : State) :
    (mainSetup n s).cachedRoutines = s.cachedRoutines ∧
    (mainSetup n s).requests = s.requests ∧ pollURL (mainSetup n s) = pollURL s ∧
    (s.intervalFlag = 0 → (mainSetup n s).paused = true) := by
  unfold mainSetup
  by_cases h1 : 0 < n <;> by_cases h2 : s.intervalFlag = 0 <;> simp [h1, h2, pollURL]

/-! ## The rows built by RebuildRows -/

theorem rowsLoop_spec (h : Heap) (f : String) (ps : List Nat) :
    ∀ (m : Int → Option Widget) (g : Grid),
    (rowsLoop h f m g ps).2 =
      ⟨g.rows ++ (ps.filter (rowShown h f m)).map (fun p => (h.obj p).Num), g.cursorPos⟩ ∧
    ∀ k, (MustGet (rowsLoop h f m g ps).1 k).2 = (MustGet m k).2 := by
  induction ps with
  | nil => intro m g; simp [rowsLoop]
  | cons p ps ih =>
    intro m g
    have hfun : rowShown h f (MustGet m (h.obj p).Num).1 = rowShown h f m := by
      funext q; simp only [rowShown, MustGet_snd_MustGet]
    by_cases hf : f = ""
    · obtain ⟨i1, i2⟩ := ih (MustGet m (h.obj p).Num).1 (g.AddRow (h.obj p).Num)
      have hs : rowShown h f m p = true := by simp [rowShown, hf]
      simp only [rowsLoop, hf, if_true]
      rw [← hf, i1, hfun]
      refine ⟨?_, fun k => by rw [i2, MustGet_snd_MustGet]⟩
      simp [List.filter_cons, hs, Grid.AddRow]
    · by_cases ht : traceMatches h (MustGet m (h.obj p).Num).2 f = true
      · obtain ⟨i1, i2⟩ := ih (MustGet m (h.obj p).Num).1 (g.AddRow (h.obj p).Num)
        have hs : rowShown h f m p = true := by simp [rowShown, ht]
        simp only [rowsLoop, hf, if_false, ht, if_true]
        rw [i1, hfun]
        refine ⟨?_, fun k => by rw [i2, MustGet_snd_MustGet]⟩
        simp [List.filter_cons, hs, Grid.AddRow]
      · obtain ⟨i1, i2⟩ := ih (MustGet m (h.obj p).Num).1 g
        have hs : rowShown h f m p = false := by simp [rowShown, hf, ht]
        simp only [rowsLoop, hf, if_false, ht, Bool.false_eq_true]
        rw [i1, hfun]
        refine ⟨?_, fun k => by rw [i2, MustGet_snd_MustGet]⟩
        simp [List.filter_cons, hs]

theorem RebuildRows_rows (t : State) :
    (RebuildRows t).grid.rows =
      ((RoutinesSort t.heap t.sortKey t.routines).filter (rowShown t.heap t.filter t.wmap)).map
        (fun p => (t.heap.obj p).Num) := by
  simp only [RebuildRows]
  rw [(rowsLoop_spec t.heap t.filter _ t.wmap t.grid.Clear).1]
  simp [Grid.Clear]

theorem RoutinesSort_perm (h : Heap) (key : String) (ps : List Nat) :
    (RoutinesSort h key ps).Perm ps := List.perm_insertionSort _ _

/-- With unique ids, a record's widget is a grid row exactly when the test
of `RebuildRows` holds for it. -/
theorem RebuildRows_mem (t : State) (d : List Nat) (hperm : t.routines.Perm d)
    (hnd : (d.map (fun q => (t.heap.obj q).Num)).Nodup) (q : Nat) (hq : q ∈ d) :
    (t.heap.obj q).Num ∈ (RebuildRows t).grid.rows ↔ rowShown t.heap t.filter t.wmap q = true := by
  rw [RebuildRows_rows, List.mem_map]
  have hmem : ∀ p, p ∈ RoutinesSort t.heap t.sortKey t.routines ↔ p ∈ d := fun p =>
    ((RoutinesSort_perm _ _ _).trans hperm).mem_iff
  constructor
  · rintro ⟨p, hp, e⟩
    obtain ⟨hp1, hp2⟩ := List.mem_filter.mp hp
    have : p = q := List.inj_on_of_nodup_map hnd ((hmem p).mp hp1) hq e
    rw [← this]; exact hp2
  · intro hs
    exact ⟨q, List.mem_filter.mpr ⟨(hmem q).mpr hq, hs⟩, rfl⟩

/-- After the loop of `Refresh`, the widget of a record holds the record's
state followed by its trace entries after the first. -/
theorem refresh_display {h : Heap} {m : Int → Option Widget} {d : List Nat} {h2 : Heap}
    {m2 : Int → Option Widget} (hsep : h.Separated d) (post : RefreshPost h m d h2 m2)
    (q : Nat) (hq : q ∈ d) :
    h2.readSlice (MustGet m2 (h.obj q).Num).2.trace = (h.view q).State :: (h.view q).Trace.tail := by
  obtain ⟨w, hw, htr⟩ := post.widget hsep.2.2 q hq
  have hset := post.array_set hsep.2.1 q hq
  obtain ⟨⟨_, hv⟩, hlen⟩ := hsep.1 q hq
  have hm : (MustGet m2 (h.obj q).Num).2 = w := by simp [MustGet, hw]
  rw [hm, htr]
  simp only [Heap.readSlice, hset, Heap.view]
  exact take_drop_set _ _ _ _ (by omega) hlen

theorem traceMatches_iff (h : Heap) (w : Widget) (f : String) (v : String) (tl : List String)
    (e : h.readSlice w.trace = v :: tl) :
    traceMatches h w f = true ↔ (strContains v f = true ∨ ∃ l ∈ tl, strContains l f = true) := by
  simp [traceMatches, e]

/-! ## Frozen polling: the clone and its independence -/

/-- C2: with a retained snapshot `c` (`cachedRoutines` non-nil) in a heap
without dangling references, `poll` returns a nil error and, by value, exactly
the records of `c` whose trace is non-empty, in the order of `c`, each with the
same `Num`, `State`, `CreatedBy` and trace entries; every returned record has a
non-empty trace and the result has as many records as `c` has records with a
trace. -/
theorem poll_cached_clone (x : Ext) (s : State) (c : List Nat)
    (hc : s.cachedRoutines = some c) (wf : s.heap.WF c) :
    (poll x s).err = none ∧
    (poll x s).state.heap.snapshot (poll x s).routines =
      (s.heap.snapshot c).filter (fun r => decide (r.Trace ≠ [])) ∧
    (∀ r ∈ (poll x s).state.heap.snapshot (poll x s).routines, r.Trace ≠ []) ∧
    (poll x s).routines.length =
      (s.heap.snapshot c).countP (fun r => decide (r.Trace ≠ [])) := by
  obtain ⟨h1, h2⟩ := poll_cached_snapshot x s c hc wf
  refine ⟨h1, h2, ?_, ?_⟩
  · intro r hr
    rw [h2] at hr
    simpa using (List.mem_filter.mp hr).2
  · have hlen := congrArg List.length h2
    rw [List.countP_eq_length_filter, ← hlen]
    simp [Heap.snapshot]

/-- Witness of C2 on the replay example: the record with the empty trace is
left out, the other one comes back with its two frames. -/
theorem poll_cached_clone_witness :
    exFrozen.cachedRoutines = some [0, 1] ∧ exFrozen.heap.WF [0, 1] ∧
    (poll exNotFound exFrozen).err = none ∧
    (poll exNotFound exFrozen).state.heap.snapshot (poll exNotFound exFrozen).routines =
      [⟨2, "sleeping", "main.main", ["main.idle /b.go:20", "main.main /b.go:5"]⟩] :=
  ⟨rfl, by decide, (poll_cached_clone exNotFound exFrozen [0, 1] rfl (by decide)).1,
    (poll_cached_clone exNotFound exFrozen [0, 1] rfl (by decide)).2.1.trans (by decide)⟩

/-- C1: freeze idempotence. With a retained snapshot `c`, call `poll`, store
any value `v r` into `Trace[0]` of every record of the returned snapshot, and
call `poll` again: the second result is, by value, what the first call returned
before the stores. In particular this holds for `Refresh`, which polls, stores
`r.Trace[0] = r.State` in every returned record and does not panic: a `poll`
after it returns the same records as the `poll` inside it did. -/
theorem freeze_poll_idempotent (x : Ext) (s : State) (c : List Nat)
    (hc : s.cachedRoutines = some c) (wf : s.heap.WF c) (v : Routine → String) :
    (poll x { (poll x s).state with
        heap := overwriteFirst v (poll x s).state.heap (poll x s).routines }).err = none ∧
    (poll x { (poll x s).state with
        heap := overwriteFirst v (poll x s).state.heap (poll x s).routines }).state.heap.snapshot
      (poll x { (poll x s).state with
        heap := overwriteFirst v (poll x s).state.heap (poll x s).routines }).routines =
      (poll x s).state.heap.snapshot (poll x s).routines ∧
    ∃ s1, Refresh x s = some s1 ∧
      s1.heap = overwriteFirst (fun r => r.State) (poll x s).state.heap (poll x s).routines ∧
      (poll x s1).err = none ∧
      (poll x s1).state.heap.snapshot (poll x s1).routines =
        (poll x s).state.heap.snapshot (poll x s).routines := by
  obtain ⟨c1, c2, c3, _⟩ := cloneLoop_spec c s.heap wf
  have key : ∀ (w : Routine → String) (t : State), t.cachedRoutines = some c →
      t.heap = overwriteFirst w (cloneLoop s.heap [] c).1 (cloneLoop s.heap [] c).2 →
      (poll x t).err = none ∧ (poll x t).state.heap.snapshot (poll x t).routines =
        (cloneLoop s.heap [] c).1.snapshot (cloneLoop s.heap [] c).2 := by
    intro w t htc hth
    obtain ⟨o1, o2, o3⟩ := overwriteFirst_frame w (cloneLoop s.heap [] c).2 (cloneLoop s.heap [] c).1
    have hs : s.heap.sameOn t.heap c := by
      rw [hth]; exact sameOn_of_fresh_writes wf c1 c3 o1 o2 o3
    obtain ⟨q1, q2⟩ := poll_cached_snapshot x t c htc (Heap.WF_of_sameOn hs wf)
    refine ⟨q1, ?_⟩
    rw [q2, Heap.snapshot_of_sameOn hs, c2]
  rw [poll_cached x s c hc]
  have k1 := key v
    { s with heap := overwriteFirst v (cloneLoop s.heap [] c).1 (cloneLoop s.heap [] c).2 } hc rfl
  refine ⟨k1.1, k1.2, ?_⟩
  obtain ⟨h2, m2, hrun, post⟩ := refreshLoop_spec (cloneLoop s.heap [] c).2 (cloneLoop s.heap [] c).1
    s.wmap (fun q hq => (c3 q hq).2.2.1)
  have hh2 := refreshLoop_heap _ _ _ _ _ hrun
  have hR : Refresh x s = some (RebuildRows
      { s with
        heap := h2
        wmap := m2
        routines := (cloneLoop s.heap [] c).2
        lastRefresh := x.now }) := by
    simp only [Refresh, poll_cached x s c hc, hrun]
  have k2 := key (fun r => r.State) (RebuildRows
      { s with
        heap := h2
        wmap := m2
        routines := (cloneLoop s.heap [] c).2
        lastRefresh := x.now }) hc hh2
  exact ⟨_, hR, hh2, k2.1, k2.2⟩

/-- Witness of C1 on the replay example: the stores change the first clone
(its first trace line becomes the state), and the second `poll` still returns
the record as it was retained. -/
theorem freeze_poll_idempotent_witness :
    exFrozen.cachedRoutines = some [0, 1] ∧ exFrozen.heap.WF [0, 1] ∧
    (overwriteFirst (fun r => r.State) (poll exNotFound exFrozen).state.heap
      (poll exNotFound exFrozen).routines).snapshot (poll exNotFound exFrozen).routines =
      [⟨2, "sleeping", "main.main", ["sleeping", "main.main /b.go:5"]⟩] ∧
    (poll exNotFound { (poll exNotFound exFrozen).state with
        heap := overwriteFirst (fun r => r.State) (poll exNotFound exFrozen).state.heap
          (poll exNotFound exFrozen).routines }).state.heap.snapshot
      (poll exNotFound { (poll exNotFound exFrozen).state with
        heap := overwriteFirst (fun r => r.State) (poll exNotFound exFrozen).state.heap
          (poll exNotFound exFrozen).routines }).routines =
      (poll exNotFound exFrozen).state.heap.snapshot (poll exNotFound exFrozen).routines :=
  ⟨rfl, by decide, by decide,
    (freeze_poll_idempotent exNotFound exFrozen [0, 1] rfl (by decide) (fun r => r.State)).2.1⟩

/-! ## Failed polls and the network -/

/-- C3, the code at the failing input: in the live example the target is
unreachable, `poll` returns the transport error, and `Refresh` has replaced
the global `routines` (record 2 before) by nil. The grid still shows its two
rows, but the next `RebuildRows` (key `s`) rebuilds it from the nil snapshot
and leaves it empty. -/
theorem refresh_failed_poll_drops_routines :
    exLive.routines = [0] ∧ exLive.grid.rows = [2, 7] ∧
    (poll exDown exLive).err = some "connection refused" ∧
    (Refresh exDown exLive).map (fun s => s.routines) = some [] ∧
    (Refresh exDown exLive).map (fun s => s.grid.rows) = some [2, 7] ∧
    ((Refresh exDown exLive).map keyS).map (fun s => s.grid.rows) = some [] := by
  decide

/-- C4, counterexample: in network mode the target answers with status 404
and a fully read body; `poll` returns a nil error and the (empty) parsed
snapshot. -/
theorem poll_error_status_counterexample :
    exLive.cachedRoutines = none ∧
    exNotFound.Get (pollURL exLive) = .response 404 "404 page not found" none ∧
    (poll exNotFound exLive).err = none ∧ (poll exNotFound exLive).routines = [] := by
  decide

/-- C4 as amended: in network mode `poll` issues one GET request for the
formatted URL and looks at no status code. It returns a non-nil error, nil
records and an untouched heap exactly when the request fails at transport
level or reading the body fails; for every response whose body was read in
full, whatever its status code, it returns a nil error and the snapshot
`ReadRoutines` parses from the body. -/
theorem poll_network_result (x : Ext) (s : State) (hc : s.cachedRoutines = none) :
    (poll x s).state.requests = s.requests ++ [pollURL s] ∧
    (∀ e, x.Get (pollURL s) = .transportErr e →
      (poll x s).err = some e ∧ (poll x s).routines = [] ∧ (poll x s).state.heap = s.heap) ∧
    (∀ st body e, x.Get (pollURL s) = .response st body (some e) →
      (poll x s).err = some e ∧ (poll x s).routines = [] ∧ (poll x s).state.heap = s.heap) ∧
    (∀ st body, x.Get (pollURL s) = .response st body none →
      (poll x s).err = none ∧ (poll x s).routines = (x.ReadRoutines s.heap body).2 ∧
      (poll x s).state.heap = (x.ReadRoutines s.heap body).1) := by
  refine ⟨?_, ?_, ?_, ?_⟩
  · simp only [poll, hc, getBody]
    cases x.Get (pollURL s) with
    | transportErr e => rfl
    | response st body re => cases re <;> rfl
  · intro e he
    simp [poll, hc, getBody, he]
  · intro st body e he
    simp [poll, hc, getBody, he]
  · intro st body he
    simp [poll, hc, getBody, he]

/-- Witness of C4 as amended, on the live example with an unreachable
target: one request is logged and the transport error comes back. -/
theorem poll_network_result_witness :
    exLive.cachedRoutines = none ∧
    (poll exDown exLive).state.requests =
      ["http://localhost:1234//debug/pprof/goroutine?debug=2"] ∧
    (poll exDown exLive).err = some "connection refused" :=
  ⟨rfl, (poll_network_result exDown exLive rfl).1,
    ((poll_network_result exDown exLive rfl).2.1 "connection refused" rfl).1⟩

/-! ## Filtering -/

/-- C5, counterexample: `poll` returns record 2 with the trace
`["main.idle /b.go:20", "main.main /b.go:5"]` and state `sleeping`. With the
filter `idle`, which the first trace entry contains, the record is not among
the rows after `Refresh` (nor after one more `RebuildRows`); with the filter
`sleep`, which no trace entry contains, it is. -/
theorem rows_filter_first_line_counterexample :
    (poll exNotFound exFrozen).state.heap.snapshot (poll exNotFound exFrozen).routines =
      [⟨2, "sleeping", "main.main", ["main.idle /b.go:20", "main.main /b.go:5"]⟩] ∧
    strContains "main.idle /b.go:20" "idle" = true ∧
    (Refresh exNotFound { exFrozen with filter := "idle" }).map (fun s => s.grid.rows) = some [] ∧
    (Refresh exNotFound { exFrozen with filter := "idle" }).map
      (fun s => (RebuildRows s).grid.rows) = some [] ∧
    strContains "main.idle /b.go:20" "sleep" = false ∧
    strContains "main.main /b.go:5" "sleep" = false ∧
    (Refresh exNotFound { exFrozen with filter := "sleep" }).map (fun s => s.grid.rows) =
      some [2] := by
  decide

/-- C5 as amended: for a snapshot returned by `poll` without error, whose
records have unique ids and each its own valid non-empty trace array,
`Refresh` does not panic, and after it (and after any later `RebuildRows`
with a filter `f`) a record's widget is among the grid rows if and only if
the filter is empty, or the record's `State` contains it, or one of the
record's trace entries after the first contains it. The first trace entry as
returned by `poll` is not searched: `Refresh` has replaced it by the state. -/
theorem rows_filter_display_trace (x : Ext) (s : State) (herr : (poll x s).err = none)
    (hsep : (poll x s).state.heap.Separated (poll x s).routines) :
    ∃ s1, Refresh x s = some s1 ∧
      ∀ q ∈ (poll x s).routines,
        (((poll x s).state.heap.view q).Num ∈ s1.grid.rows ↔
          (s.filter = "" ∨ strContains ((poll x s).state.heap.view q).State s.filter = true ∨
            ∃ l ∈ ((poll x s).state.heap.view q).Trace.tail, strContains l s.filter = true)) ∧
        ∀ f : String,
          (((poll x s).state.heap.view q).Num ∈ (RebuildRows { s1 with filter := f }).grid.rows ↔
            (f = "" ∨ strContains ((poll x s).state.heap.view q).State f = true ∨
              ∃ l ∈ ((poll x s).state.heap.view q).Trace.tail, strContains l f = true)) := by
  obtain ⟨hfil, hwm⟩ := poll_filter_wmap x s
  generalize hP : poll x s = P at herr hsep hfil hwm
  obtain ⟨h2, m2, hrun, post⟩ := refreshLoop_spec P.routines P.state.heap P.state.wmap
    (fun q hq => (hsep.1 q hq).2)
  have hobj : ∀ q, h2.obj q = P.state.heap.obj q := obj_eq_of_objs post.objs
  have hR : Refresh x s = some (RebuildRows
      { P.state with
        routines := P.routines
        heap := h2
        wmap := m2
        lastRefresh := x.now }) := by
    simp only [Refresh, hP, herr, hrun]
  refine ⟨_, hR, ?_⟩
  have hnd : ∀ (hh : Heap), hh = h2 →
      (P.routines.map (fun q => (hh.obj q).Num)).Nodup := by
    intro hh e
    have : (fun q => (hh.obj q).Num) = (fun q => (P.state.heap.obj q).Num) := by
      funext q; rw [e, hobj]
    rw [this]; exact hsep.2.2
  have hshow : ∀ (f : String) (m : Int → Option Widget), (∀ k, (MustGet m k).2 = (MustGet m2 k).2) →
      ∀ q ∈ P.routines, (rowShown h2 f m q = true ↔
        (f = "" ∨ strContains (P.state.heap.view q).State f = true ∨
          ∃ l ∈ (P.state.heap.view q).Trace.tail, strContains l f = true)) := by
    intro f m hm q hq
    have hd := refresh_display hsep post q hq
    simp only [rowShown, Bool.or_eq_true, decide_eq_true_eq, hm, hobj]
    rw [traceMatches_iff h2 _ f _ _ hd]
  intro q hq
  have hnum : (P.state.heap.view q).Num = (h2.obj q).Num := by rw [hobj]; rfl
  constructor
  · rw [hnum]
    have := RebuildRows_mem
      { P.state with
        routines := P.routines
        heap := h2
        wmap := m2
        lastRefresh := x.now } P.routines (List.Perm.refl _) (hnd _ rfl) q hq
    rw [this, ← hfil]
    exact hshow _ m2 (fun _ => rfl) q hq
  · intro f
    rw [hnum]
    have := RebuildRows_mem
      { RebuildRows
        { P.state with
          routines := P.routines
          heap := h2
          wmap := m2
          lastRefresh := x.now } with filter := f } P.routines
        (RoutinesSort_perm _ _ _) (hnd _ rfl) q hq
    refine Iff.trans this ?_
    exact hshow f _ (fun k => (rowsLoop_spec h2 P.state.filter
      (RoutinesSort h2 P.state.sortKey P.routines) m2 P.state.grid.Clear).2 k) q hq

/-- Witness of C5 as amended, on the replay example with the filter `main`:
the hypotheses hold for what `poll` returns there, and `Refresh` runs. -/
theorem rows_filter_display_trace_witness :
    (poll exNotFound { exFrozen with filter := "main" }).err = none ∧
    (poll exNotFound { exFrozen with filter := "main" }).state.heap.Separated
      (poll exNotFound { exFrozen with filter := "main" }).routines ∧
    (Refresh exNotFound { exFrozen with filter := "main" }).map (fun s => s.grid.rows) =
      some [2] ∧
    ∃ s1, Refresh exNotFound { exFrozen with filter := "main" } = some s1 :=
  ⟨by decide, by decide, by decide,
    (rows_filter_display_trace exNotFound { exFrozen with filter := "main" }
      (by decide) (by decide)).imp (fun _ h => h.1)⟩

/-! ## Pause, cursor and expansion -/

/-- C6, counterexample: the live example is switched to Frozen by the pause
toggle; the next `poll` (also through the refresh-now key) still issues the
GET request, and returns what the network answered, not a clone of the
snapshot (record 2) held when pausing. -/
theorem pause_then_poll_requests_counterexample :
    exLive.paused = false ∧ (keyP exLive).paused = true ∧ exLive.routines = [0] ∧
    (poll exNotFound (keyP exLive)).state.requests =
      ["http://localhost:1234//debug/pprof/goroutine?debug=2"] ∧
    (poll exNotFound (keyP exLive)).routines = [] ∧
    (keyR exNotFound (keyP exLive)).map (fun s => s.requests) =
      some ["http://localhost:1234//debug/pprof/goroutine?debug=2"] := by
  decide

/-- C6 as amended: the pause toggle flips `paused` and nothing `poll` reads:
`cachedRoutines`, `routines` and the heap stay as they are, and after a switch
from Live to Frozen `Display` starts no refresh timer. Whether `poll` goes to
the network is decided by `cachedRoutines` alone: if it is nil, a `poll` after
the toggle issues the GET request; if it holds a snapshot `c`, the `poll`
issues no request and returns a clone of the records of `c` that have a
trace. The same holds for the start of `main`: an interval flag of zero sets
`paused`, leaves `cachedRoutines` as it is, and with a nil `cachedRoutines`
the next `poll` issues the GET request. -/
theorem pause_keeps_poll_source (x : Ext) (s : State) :
    (keyP s).paused = !s.paused ∧ (keyP s).cachedRoutines = s.cachedRoutines ∧
    (keyP s).routines = s.routines ∧ (keyP s).heap = s.heap ∧
    (s.paused = false → timerStarted (keyP s) = false) ∧
    (s.cachedRoutines = none →
      (poll x (keyP s)).state.requests = s.requests ++ [pollURL s]) ∧
    (∀ c, s.cachedRoutines = some c → s.heap.WF c →
      (poll x (keyP s)).state.requests = s.requests ∧ (poll x (keyP s)).err = none ∧
      (poll x (keyP s)).state.heap.snapshot (poll x (keyP s)).routines =
        (s.heap.snapshot c).filter (fun r => decide (r.Trace ≠ []))) ∧
    (∀ n, (mainSetup n s).cachedRoutines = s.cachedRoutines ∧
      (s.intervalFlag = 0 → (mainSetup n s).paused = true) ∧
      (s.cachedRoutines = none →
        (poll x (mainSetup n s)).state.requests = s.requests ++ [pollURL s])) := by
  refine ⟨keyP_paused s, rfl, rfl, rfl, ?_, ?_, ?_, ?_⟩
  · intro hp
    simp [timerStarted, keyP_paused, hp]
  · intro hn
    have hn2 : (keyP s).cachedRoutines = none := hn
    simp only [poll, hn2, getBody]
    cases x.Get (pollURL (keyP s)) with
    | transportErr e => rfl
    | response st body re => cases re <;> rfl
  · intro c hc wf
    have hc2 : (keyP s).cachedRoutines = some c := hc
    obtain ⟨q1, q2⟩ := poll_cached_snapshot x (keyP s) c hc2 wf
    refine ⟨?_, q1, q2⟩
    rw [poll_cached x (keyP s) c hc2]
    rfl
  · intro n
    have hm := mainSetup_frame n s
    refine ⟨hm.1, hm.2.2.2, ?_⟩
    intro hn
    have hn2 : (mainSetup n s).cachedRoutines = none := hm.1.trans hn
    rw [← hm.2.1, ← hm.2.2.1]
    simp only [poll, hn2, getBody]
    cases x.Get (pollURL (mainSetup n s)) with
    | transportErr e => rfl
    | response st body re => cases re <;> rfl

/-- Witness of C6 as amended: all cases occur, the live example (no
retained snapshot), the replay example (a retained snapshot), and a start
with an interval flag of zero. -/
theorem pause_keeps_poll_source_witness :
    exLive.paused = false ∧ timerStarted (keyP exLive) = false ∧
    exLive.cachedRoutines = none ∧
    (poll exNotFound (keyP exLive)).state.requests = exLive.requests ++ [pollURL exLive] ∧
    exFrozen.cachedRoutines = some [0, 1] ∧ exFrozen.heap.WF [0, 1] ∧
    (poll exNotFound (keyP exFrozen)).state.requests = exFrozen.requests ∧
    (mainSetup 0 { exLive with intervalFlag := 0 }).paused = true ∧
    (poll exNotFound (mainSetup 0 { exLive with intervalFlag := 0 })).state.requests =
      exLive.requests ++ [pollURL exLive] :=
  ⟨rfl, (pause_keeps_poll_source exNotFound exLive).2.2.2.2.1 rfl, rfl,
    (pause_keeps_poll_source exNotFound exLive).2.2.2.2.2.1 rfl, rfl, by decide,
    ((pause_keeps_poll_source exNotFound exFrozen).2.2.2.2.2.2.1 [0, 1] rfl (by decide)).1,
    ((pause_keeps_poll_source exNotFound { exLive with intervalFlag := 0 }).2.2.2.2.2.2.2 0).2.1
      rfl,
    ((pause_keeps_poll_source exNotFound { exLive with intervalFlag := 0 }).2.2.2.2.2.2.2 0).2.2
      rfl⟩

/-- C7, counterexample: in the live example (`paused = false`, two rows,
cursor on the first) the cursor-up and the cursor-down handler each call the
grid's cursor movement; the claim says they do not invoke it. -/
theorem cursor_keys_call_grid_live_counterexample :
    exLive.paused = false ∧ exLive.grid.rows = [2, 7] ∧ exLive.grid.cursorPos = 0 ∧
    (keyUp exLive).calls = [Call.cursorUp] ∧ (keyDown exLive).calls = [Call.cursorDown] := by
  decide

/-- C7 as amended: cursor movement is inert in Live mode, but not because
the handlers hold it back. In every program state the cursor-up and
cursor-down handlers call the grid's cursor movement. With `paused = false`
that call is inert: the cursor position and the rest of the state are
unchanged and nothing is drawn. With `paused = true` and a non-empty grid the
same call moves the cursor by one row, clamped into `[0, len(rows)-1]`, leaves
the rows as they are, and `Render` is called exactly when the position
changed. -/
theorem cursor_keys_inert_when_live (s : State) :
    (Call.cursorUp ∈ (keyUp s).calls ∧ Call.cursorDown ∈ (keyDown s).calls) ∧
    (s.paused = false →
      (keyUp s).state = s ∧ (keyDown s).state = s ∧
      (keyUp s).state.grid.cursorPos = s.grid.cursorPos ∧
      (keyDown s).state.grid.cursorPos = s.grid.cursorPos ∧
      (keyUp s).calls = [Call.cursorUp] ∧ (keyDown s).calls = [Call.cursorDown]) ∧
    (s.paused = true → s.grid.rows ≠ [] →
      (keyUp s).state.grid.cursorPos = min (s.grid.cursorPos - 1) (s.grid.rows.length - 1) ∧
      (keyDown s).state.grid.cursorPos = min (s.grid.cursorPos + 1) (s.grid.rows.length - 1) ∧
      (keyUp s).state.grid.cursorPos < s.grid.rows.length ∧
      (keyDown s).state.grid.cursorPos < s.grid.rows.length ∧
      (keyUp s).state.grid.rows = s.grid.rows ∧ (keyDown s).state.grid.rows = s.grid.rows ∧
      (Call.render ∈ (keyUp s).calls ↔ (keyUp s).state.grid.cursorPos ≠ s.grid.cursorPos) ∧
      (Call.render ∈ (keyDown s).calls ↔
        (keyDown s).state.grid.cursorPos ≠ s.grid.cursorPos)) := by
  refine ⟨⟨?_, ?_⟩, ?_, ?_⟩
  · simp only [keyUp]
    split <;> simp
  · simp only [keyDown]
    split <;> simp
  · intro hp
    have hu : s.grid.CursorUp s.paused = (s.grid, false) := by
      simp [Grid.CursorUp, Grid.moveCursor, hp]
    have hd : s.grid.CursorDown s.paused = (s.grid, false) := by
      simp [Grid.CursorDown, Grid.moveCursor, hp]
    unfold keyUp keyDown
    rw [hu, hd]
    exact ⟨rfl, rfl, rfl, rfl, rfl, rfl⟩
  · intro hp hne
    have hlen : s.grid.rows.length ≠ 0 := fun h => hne (List.length_eq_zero.mp h)
    have hup : (max 0 (min ((s.grid.cursorPos : Int) + (-1)) ((s.grid.rows.length : Int) - 1))).toNat
        = min (s.grid.cursorPos - 1) (s.grid.rows.length - 1) := by omega
    have hdown : (max 0 (min ((s.grid.cursorPos : Int) + 1) ((s.grid.rows.length : Int) - 1))).toNat
        = min (s.grid.cursorPos + 1) (s.grid.rows.length - 1) := by omega
    have kup : (keyUp s).state.grid.cursorPos = min (s.grid.cursorPos - 1) (s.grid.rows.length - 1) := by
      simp only [keyUp, Grid.CursorUp, Grid.moveCursor, hp, hlen, if_false, Bool.true_eq_false]
      exact hup
    have kdown : (keyDown s).state.grid.cursorPos =
        min (s.grid.cursorPos + 1) (s.grid.rows.length - 1) := by
      simp only [keyDown, Grid.CursorDown, Grid.moveCursor, hp, hlen, if_false, Bool.true_eq_false]
      exact hdown
    refine ⟨kup, kdown, ?_, ?_, ?_, ?_, ?_, ?_⟩
    · rw [kup]; omega
    · rw [kdown]; omega
    · simp [keyUp, Grid.CursorUp, Grid.moveCursor, hp, hlen]
    · simp [keyDown, Grid.CursorDown, Grid.moveCursor, hp, hlen]
    · rw [kup]
      simp only [keyUp, Grid.CursorUp, Grid.moveCursor, hp, hlen, if_false, Bool.true_eq_false,
        hup]
      split <;> simp_all
    · rw [kdown]
      simp only [keyDown, Grid.CursorDown, Grid.moveCursor, hp, hlen, if_false,
        Bool.true_eq_false, hdown]
      split <;> simp_all

/-- Witness of C7 as amended: in the live example both keys leave the cursor
on row 0 and draw nothing; once paused, cursor-down moves it to row 1 and
draws, and cursor-up at row 0 stays there. -/
theorem cursor_keys_inert_when_live_witness :
    exLive.paused = false ∧ (keyDown exLive).state.grid.cursorPos = 0 ∧
    (keyDown exLive).calls = [Call.cursorDown] ∧
    (keyP exLive).paused = true ∧ (keyP exLive).grid.rows ≠ [] ∧
    (keyDown (keyP exLive)).state.grid.cursorPos = 1 ∧
    (keyDown (keyP exLive)).calls = [Call.cursorDown, Call.render] ∧
    (keyUp (keyP exLive)).state.grid.cursorPos = 0 :=
  ⟨rfl, ((cursor_keys_inert_when_live exLive).2.1 rfl).2.2.2.1,
    ((cursor_keys_inert_when_live exLive).2.1 rfl).2.2.2.2.2, rfl, by decide,
    ((cursor_keys_inert_when_live (keyP exLive)).2.2 rfl (by decide)).2.1.trans (by decide),
    by decide,
    ((cursor_keys_inert_when_live (keyP exLive)).2.2 rfl (by decide)).1.trans (by decide)⟩

/-- C8: expansion is toggled only while frozen. With `paused = false` the
enter command leaves the whole state as it is. With `paused = true` and a row
`k` at the cursor position, it flips `showTrace` of that row's widget, keeps
the widget's other fields, every other widget, the grid, the heap, the
records, the retained snapshot, the mode, the filter, the sort key and the
request log. -/
theorem enter_toggles_only_when_paused (s : State) :
    (s.paused = false → keyEnter s = some s) ∧
    (s.paused = true → ∀ k, s.grid.rows[s.grid.cursorPos]? = some k →
      ∃ s1, keyEnter s = some s1 ∧
        (s1.wmap k).map (fun w => w.showTrace) = some (!(MustGet s.wmap k).2.showTrace) ∧
        (s1.wmap k).map (fun w => (w.state, w.desc, w.trace)) =
          some ((MustGet s.wmap k).2.state, (MustGet s.wmap k).2.desc,
            (MustGet s.wmap k).2.trace) ∧
        (∀ j, j ≠ k → s1.wmap j = s.wmap j) ∧
        s1.grid = s.grid ∧ s1.heap = s.heap ∧ s1.routines = s.routines ∧
        s1.cachedRoutines = s.cachedRoutines ∧ s1.paused = s.paused ∧ s1.filter = s.filter ∧
        s1.sortKey = s.sortKey ∧ s1.requests = s.requests) := by
  constructor
  · intro hp
    simp [keyEnter, hp]
  · intro hp k hk
    refine ⟨{ s with wmap := setWidget s.wmap k (MustGet s.wmap k).2.ToggleShowTrace }, ?_, ?_, ?_,
      ?_, rfl, rfl, rfl, rfl, rfl, rfl, rfl, rfl⟩
    · simp [keyEnter, hp, hk]
    · simp [setWidget, Widget.ToggleShowTrace]
    · simp [setWidget, Widget.ToggleShowTrace]
    · intro j hj
      simp [setWidget, Function.update_noteq hj]

/-- Witness of C8: the live example is left alone by enter; once paused, enter
expands the widget of the row under the cursor (row 2) and not the other. -/
theorem enter_toggles_only_when_paused_witness :
    exLive.paused = false ∧ (keyEnter exLive).map (fun s => s.grid) = some exLive.grid ∧
    (keyP exLive).paused = true ∧ (keyP exLive).grid.rows[(keyP exLive).grid.cursorPos]? = some 2 ∧
    (∃ s1, keyEnter (keyP exLive) = some s1 ∧
      (s1.wmap 2).map (fun w => w.showTrace) = some true ∧ s1.wmap 7 = exLive.wmap 7) :=
  ⟨rfl, by rw [(enter_toggles_only_when_paused exLive).1 rfl]; rfl, rfl, rfl,
    ((enter_toggles_only_when_paused (keyP exLive)).2 rfl 2 rfl).imp
      (fun _ h => ⟨h.1, h.2.1, h.2.2.2.1 7 (by decide)⟩)⟩

/-- C10, the code at the failing input: in the replay example (paused) with
a filter that matches no line, `Refresh` leaves the grid with zero rows, and
the enter handler's `grid.rows[grid.cursorPos]` is out of range: the handler
panics. -/
theorem enter_on_empty_grid_panics :
    (Refresh exNotFound { exFrozen with filter := "zzz" }).map
      (fun s => (s.paused, s.grid.rows, s.grid.cursorPos)) = some (true, [], 0) ∧
    ((Refresh exNotFound { exFrozen with filter := "zzz" }).bind keyEnter).isNone = true := by
  decide

/-! ## Replay ingestion -/

/-- C9, the code at the failing input: with the two path arguments `a.txt`
and `b.txt`, both readable regular files, the input buffer after the loop
holds the content of `b.txt` only; what was read from `a.txt` is gone,
although `a.txt` alone is ingested as expected. -/
theorem ingest_keeps_last_argument_only :
    ingestLoop exFS none ["a.txt"] = .done (some "goroutine 1 [running]:\n") ∧
    ingestLoop exFS none ["a.txt", "b.txt"] = .done (some "goroutine 2 [sleeping]:\n") ∧
    ingestLoop exFS none ["a.txt", "b.txt"] ≠
      .done (some "goroutine 1 [running]:\ngoroutine 2 [sleeping]:\n") := by
  decide

end Grmon
